import Mathlib

/-!
Shallow embedding of the complex-vis repository's escape-time pixel
evaluator and its incremental, time-sliced computation scheduler.

Source layout:
  - `class Complex` (add/multiply over 64-bit floats, modelled here over ℚ),
  - `class Iterator` (`iter`: z*z, plus c when a second parameter is given;
    constructor rejects an empty marker list),
  - `class TranslatingContext` (affine screen↔plane mapping),
  - `class Painter` (`_getPixelColor` escape-time classifier over the
    `ITER_COLORS` palette, `computeNextPixel` cursor walk and buffer write,
    `resetImage` invalidation, `computeBatchPixels` time-sliced batch loop).

Numbers are modelled as exact rationals; the classifier comparisons and the
cursor arithmetic are translated literally from the JavaScript source.
-/

namespace ComplexVis

/-- Complex value, from `class Complex { constructor(r, i) ... }`. -/
structure Complex where
  r : ℚ
  i : ℚ
deriving DecidableEq

/-- Source: `add(complex) { return new Complex(this.r + complex.r, this.i + complex.i); }`. -/
def Complex.add (a b : Complex) : Complex :=
  ⟨a.r + b.r, a.i + b.i⟩

/-- Source: `multiply(complex) { return new Complex(this.r * complex.r - this.i * complex.i, this.r * complex.i + this.i * complex.r); }`. -/
def Complex.multiply (a b : Complex) : Complex :=
  ⟨a.r * b.r - a.i * b.i, a.r * b.i + a.i * b.r⟩

/-- One step of `Iterator.iter` on a nonempty parameter list, split into the
head `z` and the remaining parameters: `z*z`, plus the second parameter when
one is present (parameters past the second are ignored by the source). -/
def iterStep (z : Complex) (rest : List Complex) : Complex :=
  match rest with
  | [] => z.multiply z
  | c :: _ => (z.multiply z).add c

/-- Marker state consumed by the core: a name and a complex position,
from `class MovableMarker` (`this.name`, `this.x`, `this.y`). -/
structure Marker where
  name : String
  x : ℚ
  y : ℚ
deriving DecidableEq

/-- Source: `iter(complexes)` of `class Iterator`:
`let res = complexes[0].multiply(complexes[0]); if (complexes.length > 1) res = res.add(complexes[1]); return res;`.
On an empty list the JavaScript dereferences `undefined` and throws; that is
modelled as `none`. -/
def Iterator.iter (complexes : List Complex) : Option Complex :=
  match complexes with
  | [] => none
  | z :: rest => some (iterStep z rest)

/-- Guard of the `Iterator` constructor:
`if (this.markers.length === 0) { throw new Exception('Iterator needs at least 1 marker to iterate'); }`.
An `Except.error` models the constructor aborting by a thrown error. -/
def Iterator.make (markers : List Marker) : Except String (List Marker) :=
  if markers.length = 0 then
    Except.error ("Iterator needs at least 1 marker to iterate")
  else
    Except.ok markers

theorem Iterator.iter_cons (z : Complex) (rest : List Complex) :
    Iterator.iter (z :: rest) = some (iterStep z rest) := rfl

/-- Stopping test of `Painter._getPixelColor`, applied to the freshly
iterated value `z` and the previous orbit value `prev`:
`Math.abs(z.i) > 1.0 && Math.abs(z.r) > 1.0 || Math.abs(z.i - prev.i) < 0.01 && Math.abs(z.r - prev.r) < 0.01`. -/
def escTest (z prev : Complex) : Prop :=
  (1 < |z.i| ∧ 1 < |z.r|) ∨ (|z.i - prev.i| < 1 / 100 ∧ |z.r - prev.r| < 1 / 100)

instance (z prev : Complex) : Decidable (escTest z prev) := by
  unfold escTest
  exact inferInstance

/-- Orbit of the iteration: `orbit z rest n` is the value held in
`complexes[0]` after `n` rounds of `complexes[0] = iter(complexes)`
starting from `z`, with fixed further parameters `rest`. -/
def orbit (z : Complex) (rest : List Complex) : Nat → Complex
  | 0 => z
  | n + 1 => iterStep (orbit z rest n) rest

/-- The classification stops at round `i` when the freshly computed orbit
value `orbit (i+1)` together with its predecessor `orbit i` satisfies the
escape-or-convergence test. -/
def stopsAt (z : Complex) (rest : List Complex) (i : Nat) : Prop :=
  escTest (orbit z rest (i + 1)) (orbit z rest i)

instance (z : Complex) (rest : List Complex) (i : Nat) : Decidable (stopsAt z rest i) := by
  unfold stopsAt
  exact inferInstance

/-- Color entry of the palette: an RGB triple. -/
abbrev Color3 := Nat × Nat × Nat

/-- Loop of `Painter._getPixelColor`: one palette entry is consumed per
round (the JavaScript loop counter `color` runs over the palette indices,
tracked here by `idx` while `todo` is the remaining part of the palette);
when the test fires the palette entry at the current index is returned,
otherwise after the last round the last palette entry is returned. -/
def classifyLoop (rest : List Complex) (palette : List Color3) :
    List Color3 → Complex → Nat → Color3
  | [], _, _ => palette.getD (palette.length - 1) (0, 0, 0)
  | _ :: todo, z, idx =>
      let z2 := iterStep z rest
      if escTest z2 z then palette.getD idx (0, 0, 0)
      else classifyLoop rest palette todo z2 (idx + 1)

/-- Escape-time classification of a start value `z` with further iteration
parameters `rest` over a palette: the body of `Painter._getPixelColor`
after the `complexes` array has been built. -/
def Painter.getPixelColorFrom (z : Complex) (rest : List Complex)
    (palette : List Color3) : Color3 :=
  classifyLoop rest palette palette z 0

theorem classifyLoop_of_not_stops (z0 : Complex) (rest : List Complex)
    (palette : List Color3) :
    ∀ (todo : List Color3) (idx : Nat),
      (∀ j, j < todo.length → ¬ stopsAt z0 rest (idx + j)) →
      classifyLoop rest palette todo (orbit z0 rest idx) idx
        = palette.getD (palette.length - 1) (0, 0, 0) := by
  intro todo
  induction todo with
  | nil =>
      intro idx _
      rfl
  | cons hd tl ih =>
      intro idx h
      have h0 : ¬ stopsAt z0 rest idx := by
        have := h 0 (by simp)
        simpa using this
      have h0e : ¬ escTest (iterStep (orbit z0 rest idx) rest) (orbit z0 rest idx) := h0
      simp only [classifyLoop]
      rw [if_neg h0e]
      have e : iterStep (orbit z0 rest idx) rest = orbit z0 rest (idx + 1) := rfl
      rw [e]
      refine ih (idx + 1) ?_
      intro j hj
      have e2 : idx + 1 + j = idx + (j + 1) := by omega
      rw [e2]
      exact h (j + 1) (by simp only [List.length_cons]; omega)

theorem classifyLoop_of_first_stop (z0 : Complex) (rest : List Complex)
    (palette : List Color3) :
    ∀ (todo : List Color3) (idx j : Nat),
      j < todo.length → stopsAt z0 rest (idx + j) →
      (∀ k, k < j → ¬ stopsAt z0 rest (idx + k)) →
      classifyLoop rest palette todo (orbit z0 rest idx) idx
        = palette.getD (idx + j) (0, 0, 0) := by
  intro todo
  induction todo with
  | nil =>
      intro idx j hj
      simp at hj
  | cons hd tl ih =>
      intro idx j hj hstop hmin
      simp only [classifyLoop]
      cases j with
      | zero =>
          have hstope : escTest (iterStep (orbit z0 rest idx) rest) (orbit z0 rest idx) := by
            simpa using hstop
          rw [if_pos hstope, Nat.add_zero]
      | succ k =>
          have h0 : ¬ stopsAt z0 rest idx := by
            simpa using hmin 0 (Nat.succ_pos k)
          have h0e : ¬ escTest (iterStep (orbit z0 rest idx) rest) (orbit z0 rest idx) := h0
          rw [if_neg h0e]
          have e : iterStep (orbit z0 rest idx) rest = orbit z0 rest (idx + 1) := rfl
          rw [e]
          have e2 : idx + 1 + k = idx + (k + 1) := by omega
          have hrec := ih (idx + 1) k (by simp only [List.length_cons] at hj; omega)
            (by rw [e2]; exact hstop)
            (by
              intro k2 hk2
              have e3 : idx + 1 + k2 = idx + (k2 + 1) := by omega
              rw [e3]
              exact hmin (k2 + 1) (by omega))
          rw [hrec, e2]

/-- Claim C1: for every starting complex value, fixed parameter and iteration
budget (the palette, whose length is the loop bound of the source), the
classifier returns at the first index `i` where the per-axis escape test or
the per-axis convergence test holds, yielding the palette entry at `i`
clamped to the last entry; if no round satisfies either test before the
budget is exhausted, it returns the last palette color. -/
theorem claim_C1 (z c : Complex) (palette : List Color3) :
    (∀ hex : (∃ i, i < palette.length ∧ stopsAt z [c] i),
        Painter.getPixelColorFrom z [c] palette
          = palette.getD (min (Nat.find hex) (palette.length - 1)) (0, 0, 0))
  ∧ ((∀ i, i < palette.length → ¬ stopsAt z [c] i) →
        Painter.getPixelColorFrom z [c] palette
          = palette.getD (palette.length - 1) (0, 0, 0)) := by
  constructor
  · intro hex
    have hs := Nat.find_spec hex
    have hlt : Nat.find hex < palette.length := hs.1
    have hstop0 : stopsAt z [c] (0 + Nat.find hex) := by
      rw [Nat.zero_add]
      exact hs.2
    have hmin0 : ∀ k, k < Nat.find hex → ¬ stopsAt z [c] (0 + k) := by
      intro k hk hst
      rw [Nat.zero_add] at hst
      exact Nat.find_min hex hk ⟨by omega, hst⟩
    have hres := classifyLoop_of_first_stop z [c] palette palette 0 (Nat.find hex)
      hlt hstop0 hmin0
    have e0 : orbit z [c] 0 = z := rfl
    rw [e0, Nat.zero_add] at hres
    have hmin2 : min (Nat.find hex) (palette.length - 1) = Nat.find hex := by omega
    rw [hmin2]
    exact hres
  · intro hnone
    have hres := classifyLoop_of_not_stops z [c] palette palette 0
      (by intro j hj; simpa using hnone j hj)
    simpa [Painter.getPixelColorFrom, orbit] using hres

/-- Witness for C1 at the concrete input start = (0,0), fixed = (0,0) with a
two-entry palette: convergence fires at round 0, giving the first entry. -/
theorem claim_C1_witness :
    Painter.getPixelColorFrom ⟨0, 0⟩ [⟨0, 0⟩] [(1, 1, 1), (2, 2, 2)] = (1, 1, 1) := by
  have hstop0 : stopsAt ⟨0, 0⟩ [⟨0, 0⟩] 0 := by
    norm_num [stopsAt, escTest, orbit, iterStep, Complex.multiply, Complex.add]
  have hex : ∃ i, i < ([(1, 1, 1), (2, 2, 2)] : List Color3).length ∧
      stopsAt ⟨0, 0⟩ [⟨0, 0⟩] i := ⟨0, by simp, hstop0⟩
  have h := (claim_C1 ⟨0, 0⟩ ⟨0, 0⟩ [(1, 1, 1), (2, 2, 2)]).1 hex
  have hf : Nat.find hex = 0 := (Nat.find_eq_zero hex).mpr ⟨by simp, hstop0⟩
  rw [h, hf]
  rfl

/-- Claim C7: constructing the iteration core with an empty list of markers
fails immediately with an error and never yields a usable object. -/
theorem claim_C7 :
    Iterator.make ([] : List Marker)
        = Except.error ("Iterator needs at least 1 marker to iterate")
      ∧ ∀ ms : List Marker, Iterator.make ([] : List Marker) ≠ Except.ok ms := by
  constructor
  · rfl
  · intro ms h
    simp [Iterator.make] at h

/-- Claim C8: the iteration function on a one-element list `[z]` returns
`z*z`, and on `[z, c]` returns `z*z + c`; in particular
`iter [(0,0), (0.3,0.4)] = (0.3,0.4)` and `iter [(0.5,0.5)] = (0, 0.5)`. -/
theorem claim_C8 :
    (∀ z : Complex, Iterator.iter [z] = some (z.multiply z))
  ∧ (∀ z c : Complex, Iterator.iter [z, c] = some ((z.multiply z).add c))
  ∧ Iterator.iter [⟨0, 0⟩, ⟨3/10, 4/10⟩] = some ⟨3/10, 4/10⟩
  ∧ Iterator.iter [⟨1/2, 1/2⟩] = some ⟨0, 1/2⟩ := by
  refine ⟨fun z => rfl, fun z c => rfl, ?_, ?_⟩
  · norm_num [Iterator.iter, iterStep, Complex.multiply, Complex.add]
  · norm_num [Iterator.iter, iterStep, Complex.multiply]

/-- From round 2 on, the orbit of start (10,10) with fixed parameter (0,0)
has imaginary part exactly 0 and real part of absolute value at least 40000:
the orbit is (10,10), (0,200), (-40000,0), and from there each round squares
the real part while the imaginary part stays 0. -/
theorem orbit_ten_tail (n : Nat) :
    (orbit ⟨10, 10⟩ [⟨0, 0⟩] (n + 2)).i = 0
      ∧ 40000 ≤ |(orbit ⟨10, 10⟩ [⟨0, 0⟩] (n + 2)).r| := by
  induction n with
  | zero =>
      constructor
      · norm_num [orbit, iterStep, Complex.multiply, Complex.add]
      · norm_num [orbit, iterStep, Complex.multiply, Complex.add]
  | succ k ih =>
      obtain ⟨hi, hr⟩ := ih
      have e : orbit ⟨10, 10⟩ [⟨0, 0⟩] (k + 1 + 2)
          = iterStep (orbit ⟨10, 10⟩ [⟨0, 0⟩] (k + 2)) [⟨0, 0⟩] := rfl
      rw [e]
      simp only [iterStep, Complex.multiply, Complex.add]
      rw [hi]
      constructor
      · ring
      · have hsq : (40000 : ℚ) * 40000 ≤ |(orbit ⟨10, 10⟩ [⟨0, 0⟩] (k + 2)).r|
            * |(orbit ⟨10, 10⟩ [⟨0, 0⟩] (k + 2)).r| :=
          mul_le_mul hr hr (by norm_num) (abs_nonneg _)
        rw [← abs_mul] at hsq
        have he : (orbit ⟨10, 10⟩ [⟨0, 0⟩] (k + 2)).r
              * (orbit ⟨10, 10⟩ [⟨0, 0⟩] (k + 2)).r - 0 * 0 + 0
            = (orbit ⟨10, 10⟩ [⟨0, 0⟩] (k + 2)).r
              * (orbit ⟨10, 10⟩ [⟨0, 0⟩] (k + 2)).r := by ring
        rw [he]
        linarith

/-- The classification of start (10,10) with fixed parameter (0,0) never
stops: the escape test never fires because the imaginary part is 0 from
round 2 on (and fails at rounds 0 and 1), and the convergence test never
fires because the real part keeps squaring away. -/
theorem not_stops_ten : ∀ i : Nat, ¬ stopsAt ⟨10, 10⟩ [⟨0, 0⟩] i := by
  intro i
  match i with
  | 0 => norm_num [stopsAt, escTest, orbit, iterStep, Complex.multiply, Complex.add]
  | 1 => norm_num [stopsAt, escTest, orbit, iterStep, Complex.multiply, Complex.add]
  | n + 2 =>
      obtain ⟨hi, hr⟩ := orbit_ten_tail n
      intro hst
      unfold stopsAt escTest at hst
      have e : orbit ⟨10, 10⟩ [⟨0, 0⟩] (n + 2 + 1)
          = iterStep (orbit ⟨10, 10⟩ [⟨0, 0⟩] (n + 2)) [⟨0, 0⟩] := rfl
      rw [e] at hst
      simp only [iterStep, Complex.multiply, Complex.add] at hst
      rw [hi] at hst
      rcases hst with ⟨h1, _⟩ | ⟨_, h2⟩
      · have hz : (orbit ⟨10, 10⟩ [⟨0, 0⟩] (n + 2)).r * 0
            + 0 * (orbit ⟨10, 10⟩ [⟨0, 0⟩] (n + 2)).r + 0 = 0 := by ring
        rw [hz] at h1
        norm_num at h1
      · have hz : (orbit ⟨10, 10⟩ [⟨0, 0⟩] (n + 2)).r
              * (orbit ⟨10, 10⟩ [⟨0, 0⟩] (n + 2)).r - 0 * 0 + 0
              - (orbit ⟨10, 10⟩ [⟨0, 0⟩] (n + 2)).r
            = (orbit ⟨10, 10⟩ [⟨0, 0⟩] (n + 2)).r
              * ((orbit ⟨10, 10⟩ [⟨0, 0⟩] (n + 2)).r - 1) := by ring
        rw [hz, abs_mul] at h2
        have hone : (40000 : ℚ) - 1 ≤ |(orbit ⟨10, 10⟩ [⟨0, 0⟩] (n + 2)).r - 1| := by
          have hd := abs_sub_abs_le_abs_sub (orbit ⟨10, 10⟩ [⟨0, 0⟩] (n + 2)).r (1 : ℚ)
          rw [abs_one] at hd
          linarith
        have hbig : (40000 : ℚ) * (40000 - 1)
            ≤ |(orbit ⟨10, 10⟩ [⟨0, 0⟩] (n + 2)).r|
              * |(orbit ⟨10, 10⟩ [⟨0, 0⟩] (n + 2)).r - 1| :=
          mul_le_mul hr hone (by norm_num) (abs_nonneg _)
        have : (40000 : ℚ) * (40000 - 1) < 1 / 100 := lt_of_le_of_lt hbig h2
        norm_num at this

/-- Claim C2 counterexample: for start (10,10) with fixed parameter (0,0)
the classification does not stop at iteration 0 at all — the first iterate is
(0, 200), whose real part fails the per-axis escape test `|re| > 1`, and the
convergence test also fails, contradicting the claimed escape at index 0. -/
theorem claim_C2_counterexample : ¬ stopsAt ⟨10, 10⟩ [⟨0, 0⟩] 0 := by
  norm_num [stopsAt, escTest, orbit, iterStep, Complex.multiply, Complex.add]

/-- Claim C2 amended: for start (10,10) with fixed parameter (0,0) the
classifier never detects escape or convergence at any iteration (in
particular not at iteration 0); it exhausts its budget and returns the last
palette color. -/
theorem claim_C2_amended (palette : List Color3) :
    (∀ i : Nat, ¬ stopsAt ⟨10, 10⟩ [⟨0, 0⟩] i)
  ∧ Painter.getPixelColorFrom ⟨10, 10⟩ [⟨0, 0⟩] palette
      = palette.getD (palette.length - 1) (0, 0, 0) := by
  refine ⟨not_stops_ten, ?_⟩
  have hres := classifyLoop_of_not_stops ⟨10, 10⟩ [⟨0, 0⟩] palette palette 0
    (fun j _ => not_stops_ten (0 + j))
  exact hres

/-- Point, the `{x, y}` objects passed through the coordinate mapper. -/
structure Point where
  x : ℚ
  y : ℚ
deriving DecidableEq

/-- Screen↔plane mapper, from `class TranslatingContext`: the plane `width`,
`height` and grid `unit` passed to the constructor, and the canvas
dimensions captured from the canvas at construction. -/
structure TranslatingContext where
  width : ℚ
  height : ℚ
  unit : ℚ
  canvasWidth : ℚ
  canvasHeight : ℚ
deriving DecidableEq

/-- Source: `_normX(x) { return x / this.width * this.canvasWidth; }`. -/
def TranslatingContext.normX (t : TranslatingContext) (x : ℚ) : ℚ :=
  x / t.width * t.canvasWidth

/-- Source: `_transX(x) { return x + this.canvasWidth / 2; }`. -/
def TranslatingContext.transX (t : TranslatingContext) (x : ℚ) : ℚ :=
  x + t.canvasWidth / 2

/-- Source: `_toCanvasX(x) { return this._transX(this._normX(x)); }`. -/
def TranslatingContext.toCanvasX (t : TranslatingContext) (x : ℚ) : ℚ :=
  t.transX (t.normX x)

/-- Source: `_normY(y) { return (y / this.height * this.canvasHeight) }`. -/
def TranslatingContext.normY (t : TranslatingContext) (y : ℚ) : ℚ :=
  y / t.height * t.canvasHeight

/-- Source: `_transY(y) { return - y + this.canvasHeight / 2; }`. -/
def TranslatingContext.transY (t : TranslatingContext) (y : ℚ) : ℚ :=
  -y + t.canvasHeight / 2

/-- Source: `_toCanvasY(y) { return this._transY(this._normY(y)); }`. -/
def TranslatingContext.toCanvasY (t : TranslatingContext) (y : ℚ) : ℚ :=
  t.transY (t.normY y)

/-- Source: `_fromCanvasX(x) { return (x - this.canvasWidth / 2) * this.width / this.canvasWidth; }`. -/
def TranslatingContext.fromCanvasX (t : TranslatingContext) (x : ℚ) : ℚ :=
  (x - t.canvasWidth / 2) * t.width / t.canvasWidth

/-- Source: `_fromCanvasY(y) { return (y - this.canvasHeight / 2) * -this.height / this.canvasHeight; }`. -/
def TranslatingContext.fromCanvasY (t : TranslatingContext) (y : ℚ) : ℚ :=
  (y - t.canvasHeight / 2) * (-t.height) / t.canvasHeight

/-- Source: `transform({x, y})` maps a plane point to canvas coordinates. -/
def TranslatingContext.transform (t : TranslatingContext) (p : Point) : Point :=
  ⟨t.toCanvasX p.x, t.toCanvasY p.y⟩

/-- Source: `inverseTransform({x, y})` maps a canvas point to plane coordinates. -/
def TranslatingContext.inverseTransform (t : TranslatingContext) (p : Point) : Point :=
  ⟨t.fromCanvasX p.x, t.fromCanvasY p.y⟩

/-- Claim C10: over exact rationals the coordinate mapping round-trips:
`inverseTransform (transform p) = p` whenever the plane width/height and the
canvas width/height are all nonzero. -/
theorem claim_C10 (t : TranslatingContext) (p : Point)
    (hw : t.width ≠ 0) (hh : t.height ≠ 0)
    (hcw : t.canvasWidth ≠ 0) (hch : t.canvasHeight ≠ 0) :
    t.inverseTransform (t.transform p) = p := by
  obtain ⟨px, py⟩ := p
  unfold TranslatingContext.inverseTransform TranslatingContext.transform
    TranslatingContext.fromCanvasX TranslatingContext.fromCanvasY
    TranslatingContext.toCanvasX TranslatingContext.toCanvasY
    TranslatingContext.transX TranslatingContext.transY
    TranslatingContext.normX TranslatingContext.normY
  simp only [Point.mk.injEq]
  constructor
  · field_simp
    ring
  · field_simp
    ring

/-- Witness for C10 at a concrete mapper and point. -/
theorem claim_C10_witness :
    (TranslatingContext.mk 2 2 (1/5) 800 600).inverseTransform
        ((TranslatingContext.mk 2 2 (1/5) 800 600).transform ⟨1/10, 1/5⟩)
      = ⟨1/10, 1/5⟩ :=
  claim_C10 (TranslatingContext.mk 2 2 (1/5) 800 600) ⟨1/10, 1/5⟩
    (by norm_num) (by norm_num) (by norm_num) (by norm_num)

/-- Palette `this.ITER_COLORS` of the `Painter` constructor (the single
uncommented row of the source array), an ordered list of 64 RGB triples. -/
def ITER_COLORS : List Color3 :=
  [(0, 73, 229), (3, 71, 228), (6, 70, 227), (10, 69, 227), (13, 68, 226), (17, 67, 225),
   (20, 66, 225), (24, 64, 224), (27, 63, 223), (31, 62, 223), (34, 61, 222), (38, 60, 222),
   (41, 59, 221), (45, 57, 220), (48, 56, 220), (52, 55, 219), (55, 54, 218), (59, 53, 218),
   (62, 52, 217), (66, 50, 216), (69, 49, 216), (73, 48, 215), (76, 47, 215), (79, 46, 214),
   (83, 45, 213), (86, 44, 213), (90, 42, 212), (93, 41, 211), (97, 40, 211), (100, 39, 210),
   (104, 38, 209), (107, 37, 209), (111, 35, 208), (114, 34, 208), (118, 33, 207), (121, 32, 206),
   (125, 31, 206), (128, 30, 205), (132, 28, 204), (135, 27, 204), (139, 26, 203), (142, 25, 202),
   (146, 24, 202), (149, 23, 201), (152, 22, 201), (156, 20, 200), (159, 19, 199), (163, 18, 199),
   (166, 17, 198), (170, 16, 197), (173, 15, 197), (177, 13, 196), (180, 12, 195), (184, 11, 195),
   (187, 10, 194), (191, 9, 194), (194, 8, 193), (198, 6, 192), (201, 5, 192), (205, 4, 191),
   (208, 3, 190), (212, 2, 190), (215, 1, 189), (219, 0, 189)]

/-- Pixel cursor `this.currentPixel = { x: .., y: .. }`; x starts at -1,
meaning the next advance computes pixel (0,0). -/
structure Cursor where
  x : Int
  y : Int
deriving DecidableEq

/-- One RGBA pixel of the `ImageData` byte buffer (four consecutive bytes). -/
structure RGBA where
  r : Nat
  g : Nat
  b : Nat
  a : Nat
deriving DecidableEq

/-- Mutable state of the `Painter`: the pixel buffer `imageData.data`
(grouped into RGBA pixels) and the traversal cursor. -/
structure PState where
  data : List RGBA
  cur : Cursor
deriving DecidableEq

/-- Static configuration of the `Painter`: the coordinate mapper, the
markers of its `Iterator`, the currently designated variable marker name,
and the `imageData` dimensions (equal to the canvas dimensions). -/
structure Painter where
  tctx : TranslatingContext
  markers : List Marker
  variableMarker : String
  width : Nat
  height : Nat

/-- Cursor advance at the top of `computeNextPixel`:
`this.currentPixel.x += 1; if (x > width && y < height) { x = 0; y += 1; }`. -/
def nextCursor (w h : Nat) (c : Cursor) : Cursor :=
  let x := c.x + 1
  if x > (w : Int) ∧ c.y < (h : Int) then ⟨0, c.y + 1⟩ else ⟨x, c.y⟩

/-- Buffer offset of a cursor position:
`const i = this.currentPixel.x + this.currentPixel.y * this.imageData.width`. -/
def linearIndex (w : Nat) (c : Cursor) : Int :=
  c.x + c.y * (w : Int)

/-- Write one RGBA pixel at a (possibly out-of-range) offset; out-of-range
writes are dropped, as they are on a JavaScript `Uint8ClampedArray`. -/
def dataSet (d : List RGBA) (idx : Int) (v : RGBA) : List RGBA :=
  if idx < 0 then d else d.set idx.toNat v

/-- Blank pixel written by `resetImage`: R = G = B = A = 255. -/
def blankPixel : RGBA := ⟨255, 255, 255, 255⟩

/-- The `complexes` array built at the top of `_getPixelColor`: each marker
contributes its own position, except the designated variable marker, which
is replaced by the pixel's plane coordinates. -/
def Painter.complexesOf (p : Painter) (pixel : Point) : List Complex :=
  p.markers.map fun m =>
    if m.name = p.variableMarker then
      let itPixel := p.tctx.inverseTransform pixel
      ⟨itPixel.x, itPixel.y⟩
    else ⟨m.x, m.y⟩

/-- Source `Painter._getPixelColor(pixel)`. On an empty marker list the
JavaScript would throw inside `iter`; that case is modelled as `none`. -/
def Painter.getPixelColor (p : Painter) (pixel : Point) : Option Color3 :=
  match p.complexesOf pixel with
  | [] => none
  | z :: rest => some (Painter.getPixelColorFrom z rest ITER_COLORS)

/-- Source `Painter.computeNextPixel()`: advance the cursor, stop if the
cursor is past the last row, otherwise classify the pixel at the cursor and
write its color at the pixel's offset with alpha 250. -/
def Painter.computeNextPixel (p : Painter) (s : PState) : PState :=
  let c := nextCursor p.width p.height s.cur
  if c.y ≥ (p.height : Int) then { s with cur := c }
  else
    match p.getPixelColor ⟨(c.x : ℚ), (c.y : ℚ)⟩ with
    | none => { s with cur := c }
    | some col =>
        ⟨dataSet s.data (linearIndex p.width c) ⟨col.1, col.2.1, col.2.2, 250⟩, c⟩

/-- Source `Painter.resetImage(updatedMarker)`: a no-op when the update
concerns the designated variable marker, otherwise every pixel becomes
blank (255,255,255,255) and the cursor rewinds to `{x: -1, y: 0}`. -/
def Painter.resetImage (p : Painter) (updatedMarker : Option Marker) (s : PState) : PState :=
  match updatedMarker with
  | some m =>
      if m.name = p.variableMarker then s
      else ⟨s.data.map fun _ => blankPixel, ⟨-1, 0⟩⟩
  | none => ⟨s.data.map fun _ => blankPixel, ⟨-1, 0⟩⟩

/-- Source `this.PIXEL_BATCH = 100000`. -/
def PIXEL_BATCH : Nat := 100000

/-- Source `this.PIXEL_BATCH_INTERVAL = 10` (milliseconds). -/
def PIXEL_BATCH_INTERVAL : Int := 10

/-- Loop of `computeBatchPixels`: `clock k` is the value returned by the
`k`-th call of `Date.now()` within the tick (call 0 is `start`); each round
first checks the elapsed time and returns if the budget is exceeded, then
computes one pixel. Returns the final state together with the number of
pixels computed. -/
def batchGo (p : Painter) (clock : Nat → Int) (start : Int) :
    Nat → Nat → PState → PState × Nat
  | 0, _, s => (s, 0)
  | n + 1, k, s =>
      if clock k - start > PIXEL_BATCH_INTERVAL then (s, 0)
      else
        let out := batchGo p clock start n (k + 1) (p.computeNextPixel s)
        (out.1, out.2 + 1)

/-- Source `Painter.computeBatchPixels()`: run up to `PIXEL_BATCH` pixel
computations, stopping as soon as the clock has advanced past
`PIXEL_BATCH_INTERVAL` since the start of the tick. -/
def Painter.computeBatchPixels (p : Painter) (clock : Nat → Int) (s : PState) : PState :=
  (batchGo p clock (clock 0) PIXEL_BATCH 1 s).1

/-- Number of pixels computed by one `computeBatchPixels` tick. -/
def Painter.batchCount (p : Painter) (clock : Nat → Int) (s : PState) : Nat :=
  (batchGo p clock (clock 0) PIXEL_BATCH 1 s).2

theorem map_const_blank (d : List RGBA) :
    (d.map fun _ => blankPixel) = List.replicate d.length blankPixel := by
  induction d with
  | nil => rfl
  | cons a l ih => simp [List.replicate_succ, ih]

/-- Claim C4: a marker update whose marker is not the designated variable
marker resets every pixel to the blank value and rewinds the cursor to the
start, both in the same operation; an update of the variable marker leaves
buffer and cursor untouched. -/
theorem claim_C4 (p : Painter) (s : PState) (m : Marker) :
    (m.name ≠ p.variableMarker →
        p.resetImage (some m) s
          = ⟨List.replicate s.data.length blankPixel, ⟨-1, 0⟩⟩)
  ∧ (m.name = p.variableMarker → p.resetImage (some m) s = s) := by
  constructor
  · intro hne
    simp only [Painter.resetImage]
    rw [if_neg hne, map_const_blank]
  · intro heq
    simp only [Painter.resetImage]
    rw [if_pos heq]

/-- Witness for C4: updating marker B while A is the variable marker blanks
a concrete two-pixel buffer and rewinds the cursor. -/
theorem claim_C4_witness :
    Painter.resetImage
        ⟨⟨2, 2, 1/5, 2, 2⟩, [⟨"A", 1/10, 1/5⟩, ⟨"B", -3/10, -1/2⟩], "A", 2, 2⟩
        (some ⟨"B", 0, 0⟩)
        ⟨[⟨1, 2, 3, 250⟩, ⟨4, 5, 6, 250⟩], ⟨5, 0⟩⟩
      = ⟨[blankPixel, blankPixel], ⟨-1, 0⟩⟩ := by
  have h := (claim_C4
      ⟨⟨2, 2, 1/5, 2, 2⟩, [⟨"A", 1/10, 1/5⟩, ⟨"B", -3/10, -1/2⟩], "A", 2, 2⟩
      ⟨[⟨1, 2, 3, 250⟩, ⟨4, 5, 6, 250⟩], ⟨5, 0⟩⟩ ⟨"B", 0, 0⟩).1 (by decide)
  rw [h]
  rfl

theorem batchGo_count_le (p : Painter) (clock : Nat → Int) (start : Int) :
    ∀ (n k : Nat) (s : PState), (batchGo p clock start n k s).2 ≤ n := by
  intro n
  induction n with
  | zero =>
      intro k s
      simp [batchGo]
  | succ m ih =>
      intro k s
      simp only [batchGo]
      split
      · simp
      · simpa using Nat.succ_le_succ (ih (k + 1) (p.computeNextPixel s))

theorem batchGo_count_stop (p : Painter) (clock : Nat → Int) (start : Int) :
    ∀ (n k : Nat) (s : PState) (j : Nat),
      clock (k + j) - start > PIXEL_BATCH_INTERVAL →
      (batchGo p clock start n k s).2 ≤ j := by
  intro n
  induction n with
  | zero =>
      intro k s j _
      simp [batchGo]
  | succ m ih =>
      intro k s j hj
      simp only [batchGo]
      split
      · simp
      · rename_i hnot
        cases j with
        | zero =>
            exfalso
            rw [Nat.add_zero] at hj
            exact hnot hj
        | succ j2 =>
            have hrec := ih (k + 1) (p.computeNextPixel s) j2 (by
              have e : k + 1 + j2 = k + (j2 + 1) := by omega
              rw [e]
              exact hj)
            simpa using Nat.succ_le_succ hrec

/-- Claim C5: one scheduler tick computes at most `PIXEL_BATCH` = 100000
pixels, for every clock — in particular for a clock that never advances —
and it stops as soon as the elapsed time measured at a check exceeds the
budget `PIXEL_BATCH_INTERVAL` = 10: if the `(i+1)`-st clock reading already
exceeds the budget, at most `i` pixels are computed. -/
theorem claim_C5 (p : Painter) (clock : Nat → Int) (s : PState) :
    PIXEL_BATCH = 100000
  ∧ PIXEL_BATCH_INTERVAL = 10
  ∧ p.batchCount clock s ≤ PIXEL_BATCH
  ∧ (∀ i : Nat, clock (i + 1) - clock 0 > PIXEL_BATCH_INTERVAL →
        p.batchCount clock s ≤ i) := by
  refine ⟨rfl, rfl, ?_, ?_⟩
  · exact batchGo_count_le p clock (clock 0) PIXEL_BATCH 1 s
  · intro i hi
    refine batchGo_count_stop p clock (clock 0) PIXEL_BATCH 1 s i ?_
    have e : 1 + i = i + 1 := by omega
    rw [e]
    exact hi

/-- Clock used by the C5 witness: reading 6 and later return 11ms, so the
tick must stop having computed at most 5 pixels. -/
def witnessClock : Nat → Int := fun k => if 6 ≤ k then 11 else 0

/-- Witness for C5: with the concrete clock above, the concrete painter
computes at most 5 pixels in one tick. -/
theorem claim_C5_witness :
    Painter.batchCount
        ⟨⟨2, 2, 1/5, 2, 2⟩, [⟨"A", 1/10, 1/5⟩, ⟨"B", -3/10, -1/2⟩], "A", 2, 2⟩
        witnessClock
        ⟨[blankPixel, blankPixel, blankPixel, blankPixel], ⟨-1, 0⟩⟩
      ≤ 5 :=
  (claim_C5
      ⟨⟨2, 2, 1/5, 2, 2⟩, [⟨"A", 1/10, 1/5⟩, ⟨"B", -3/10, -1/2⟩], "A", 2, 2⟩
      witnessClock
      ⟨[blankPixel, blankPixel, blankPixel, blankPixel], ⟨-1, 0⟩⟩).2.2.2 5
    (by norm_num [witnessClock, PIXEL_BATCH_INTERVAL])

/-- Offset written by one `computeNextPixel` step starting from cursor `c`:
the advanced cursor's offset when a write happens (advanced cursor still
above the last row), `none` when the step returns without writing. -/
def stepWrite (w h : Nat) (c : Cursor) : Option Int :=
  let c2 := nextCursor w h c
  if c2.y < (h : Int) then some (linearIndex w c2) else none

/-- Cursor states reachable by the painter within one generation: the fresh
cursor (-1, 0), an in-progress cursor with 0 ≤ x ≤ width (each row overruns
by one column) and 0 ≤ y < height, or a finished cursor with y = height and
any x ≥ 0 (x keeps incrementing after the last row). -/
def cursorOk (w h : Nat) (c : Cursor) : Prop :=
  (c.x = -1 ∧ c.y = 0)
    ∨ (0 ≤ c.x ∧ c.x ≤ (w : Int) ∧ 0 ≤ c.y ∧ c.y < (h : Int))
    ∨ (c.y = (h : Int) ∧ 0 ≤ c.x)

instance (w h : Nat) (c : Cursor) : Decidable (cursorOk w h c) := by
  unfold cursorOk
  exact inferInstance

/-- Sequence of write decisions of successive cursor advances. -/
def writeTrace (w h : Nat) : Nat → Cursor → List (Option Int)
  | 0, _ => []
  | n + 1, c => stepWrite w h c :: writeTrace w h n (nextCursor w h c)

/-- Iterated `computeNextPixel`. -/
def pIter (p : Painter) : Nat → PState → PState
  | 0, s => s
  | n + 1, s => pIter p n (p.computeNextPixel s)

/-- Initial painter state: blank buffer of width × height pixels and the
cursor at `{x: -1, y: 0}`, as established by the `Painter` constructor. -/
def Painter.initState (p : Painter) : PState :=
  ⟨List.replicate (p.width * p.height) blankPixel, ⟨-1, 0⟩⟩

/-- Concrete painter on a 2×2 canvas: plane window 2.0 × 2.0 with unit 0.2
as in the source (`new TranslatingContext(canvas, 2.0, 2.0, 0.2)`), markers
A at (0.1, 0.2) and B at (-0.3, -0.5) as in the source, variable marker A. -/
def samplePainter : Painter :=
  ⟨⟨2, 2, 1/5, 2, 2⟩, [⟨"A", 1/10, 1/5⟩, ⟨"B", -3/10, -1/2⟩], "A", 2, 2⟩

/-- The same painter on a 1×1 canvas. -/
def samplePainter1 : Painter :=
  ⟨⟨2, 2, 1/5, 1, 1⟩, [⟨"A", 1/10, 1/5⟩, ⟨"B", -3/10, -1/2⟩], "A", 1, 1⟩

theorem nextCursor_pos (w h : Nat) (c : Cursor)
    (hc : c.x + 1 > (w : Int) ∧ c.y < (h : Int)) :
    nextCursor w h c = ⟨0, c.y + 1⟩ := by
  unfold nextCursor
  dsimp only
  rw [if_pos hc]

theorem nextCursor_neg (w h : Nat) (c : Cursor)
    (hc : ¬(c.x + 1 > (w : Int) ∧ c.y < (h : Int))) :
    nextCursor w h c = ⟨c.x + 1, c.y⟩ := by
  unfold nextCursor
  dsimp only
  rw [if_neg hc]

theorem stepWrite_eq (w h : Nat) (c : Cursor) (o : Int)
    (hw : stepWrite w h c = some o) :
    (nextCursor w h c).y < (h : Int) ∧ o = linearIndex w (nextCursor w h c) := by
  unfold stepWrite at hw
  dsimp only at hw
  split_ifs at hw with hb
  exact ⟨hb, (Option.some.inj hw).symm⟩

/-- Two consecutive writes hit offsets differing by one, except at the row
overrun column x = width, where the same offset is written twice. -/
theorem stepWrite_consecutive (w h : Nat) (x y : Int) (o1 o2 : Int)
    (h1 : stepWrite w h ⟨x, y⟩ = some o1)
    (h2 : stepWrite w h (nextCursor w h ⟨x, y⟩) = some o2) :
    (o2 = o1 + 1 ∧ (nextCursor w h ⟨x, y⟩).x < (w : Int))
      ∨ (o2 = o1 ∧ (nextCursor w h ⟨x, y⟩).x = (w : Int)) := by
  obtain ⟨hB1, ho1⟩ := stepWrite_eq w h ⟨x, y⟩ o1 h1
  obtain ⟨hB2, ho2⟩ := stepWrite_eq w h (nextCursor w h ⟨x, y⟩) o2 h2
  by_cases hA1 : x + 1 > (w : Int) ∧ y < (h : Int)
  · have ec : nextCursor w h ⟨x, y⟩ = ⟨0, y + 1⟩ := nextCursor_pos w h ⟨x, y⟩ hA1
    rw [ec] at hB1 ho1 hB2 ho2 ⊢
    unfold linearIndex at ho1 ho2
    dsimp only at hB1 ho1 hB2 ho2 ⊢
    by_cases hA2 : (0 : Int) + 1 > (w : Int) ∧ y + 1 < (h : Int)
    · have hw0 : (w : Int) = 0 := by omega
      have ec2 : nextCursor w h ⟨0, y + 1⟩ = ⟨0, y + 1 + 1⟩ :=
        nextCursor_pos w h ⟨0, y + 1⟩ (by dsimp only; exact hA2)
      rw [ec2] at hB2 ho2
      dsimp only at hB2 ho2
      right
      constructor
      · rw [ho1, ho2, hw0]
        ring
      · rw [hw0]
    · have ec2 : nextCursor w h ⟨0, y + 1⟩ = ⟨0 + 1, y + 1⟩ :=
        nextCursor_neg w h ⟨0, y + 1⟩ (by dsimp only; exact hA2)
      rw [ec2] at hB2 ho2
      dsimp only at hB2 ho2
      have hw1 : (0 : Int) < (w : Int) := by omega
      left
      constructor
      · rw [ho1, ho2]
        ring
      · exact hw1
  · have ec : nextCursor w h ⟨x, y⟩ = ⟨x + 1, y⟩ := nextCursor_neg w h ⟨x, y⟩ hA1
    rw [ec] at hB1 ho1 hB2 ho2 ⊢
    unfold linearIndex at ho1 ho2
    dsimp only at hB1 ho1 hB2 ho2 ⊢
    have hxle : x + 1 ≤ (w : Int) := by omega
    by_cases hA2 : x + 1 + 1 > (w : Int) ∧ y < (h : Int)
    · have hxw : x + 1 = (w : Int) := by omega
      have ec2 : nextCursor w h ⟨x + 1, y⟩ = ⟨0, y + 1⟩ :=
        nextCursor_pos w h ⟨x + 1, y⟩ (by dsimp only; exact hA2)
      rw [ec2] at hB2 ho2
      dsimp only at hB2 ho2
      right
      constructor
      · rw [ho1, ho2, ← hxw]
        ring
      · exact hxw
    · have ec2 : nextCursor w h ⟨x + 1, y⟩ = ⟨x + 1 + 1, y⟩ :=
        nextCursor_neg w h ⟨x + 1, y⟩ (by dsimp only; exact hA2)
      rw [ec2] at hB2 ho2
      dsimp only at hB2 ho2
      left
      constructor
      · rw [ho1, ho2]
        ring
      · omega

theorem nextCursor_ok (w h : Nat) (c : Cursor) (hOk : cursorOk w h c) :
    cursorOk w h (nextCursor w h c) := by
  obtain ⟨x, y⟩ := c
  unfold cursorOk at hOk ⊢
  unfold nextCursor
  dsimp only at hOk ⊢
  split_ifs with hcond <;> dsimp only <;> omega

theorem computeNextPixel_cur (p : Painter) (s : PState) :
    (p.computeNextPixel s).cur = nextCursor p.width p.height s.cur := by
  unfold Painter.computeNextPixel
  dsimp only
  split_ifs with hge
  · rfl
  · rcases hg : p.getPixelColor ⟨((nextCursor p.width p.height s.cur).x : ℚ),
        ((nextCursor p.width p.height s.cur).y : ℚ)⟩ with _ | col
    · rfl
    · rfl

/-- Claim C3 counterexample: on a 2×2 buffer the first four steps from the
fresh cursor write offsets 0, 1, 2, 2 — the third step computes the
out-of-row pixel (2,0) whose offset 2 coincides with that of pixel (0,1)
computed by the fourth step, so the same buffer offset is written twice
within one generation, contradicting the no-duplicate-writes claim. -/
theorem claim_C3_counterexample :
    writeTrace 2 2 4 ⟨-1, 0⟩ = [some 0, some 1, some 2, some 2]
      ∧ ¬ ((writeTrace 2 2 4 ⟨-1, 0⟩).filterMap id).Nodup := by
  constructor
  · decide
  · decide

/-- Claim C3 amended: within one generation, successive write offsets are
nondecreasing and advance by at most one (no reordering, no skips); each
row overruns by one column (x runs from 0 to width inclusive), and exactly
when the advanced cursor sits at the overrun column x = width the following
write hits the same offset again — a duplicate write. The cursor wraps a
row when x exceeds the row width, and once y reaches the last row the step
never writes again and only x keeps incrementing; the state invariant
`cursorOk` is preserved, and `computeNextPixel` advances the cursor exactly
as `nextCursor` describes. -/
theorem claim_C3_amended (w h : Nat) (c : Cursor) (hOk : cursorOk w h c) :
    cursorOk w h (nextCursor w h c)
  ∧ (∀ o1 o2 : Int,
        stepWrite w h c = some o1 →
        stepWrite w h (nextCursor w h c) = some o2 →
        ((o2 = o1 + 1 ∧ (nextCursor w h c).x < (w : Int))
          ∨ (o2 = o1 ∧ (nextCursor w h c).x = (w : Int))))
  ∧ (c.y = (h : Int) → stepWrite w h c = none ∧ nextCursor w h c = ⟨c.x + 1, c.y⟩)
  ∧ (∀ (p : Painter) (s : PState),
        p.width = w → p.height = h → s.cur = c →
        (p.computeNextPixel s).cur = nextCursor w h c) := by
  obtain ⟨x, y⟩ := c
  refine ⟨nextCursor_ok w h ⟨x, y⟩ hOk, ?_, ?_, ?_⟩
  · intro o1 o2 h1 h2
    exact stepWrite_consecutive w h x y o1 o2 h1 h2
  · intro hy
    dsimp only at hy
    constructor
    · unfold stepWrite nextCursor linearIndex
      dsimp only
      rw [if_neg (show ¬(x + 1 > (w : Int) ∧ y < (h : Int)) by omega)]
      dsimp only
      rw [if_neg (show ¬(y < (h : Int)) by omega)]
    · unfold nextCursor
      dsimp only
      rw [if_neg (show ¬(x + 1 > (w : Int) ∧ y < (h : Int)) by omega)]
  · intro p s hw hh hsc
    rw [computeNextPixel_cur, hsc, hw, hh]

/-- Witness for the C3 amendment: from cursor (1,0) on a 2×2 buffer the
next two writes hit offsets 2 and 2 — the duplicate case of the step
relation, with the advanced cursor at the overrun column x = 2 = width. -/
theorem claim_C3_witness :
    ((2 : Int) = 2 + 1 ∧ (nextCursor 2 2 ⟨1, 0⟩).x < (2 : Int))
      ∨ ((2 : Int) = 2 ∧ (nextCursor 2 2 ⟨1, 0⟩).x = (2 : Int)) :=
  (claim_C3_amended 2 2 ⟨1, 0⟩ (by decide)).2.1 2 2 (by decide) (by decide)

/-- Iterated cursor advance; by `computeNextPixel_cur` this is exactly the
cursor component of iterated `computeNextPixel`. -/
def cIter (w h : Nat) : Nat → Cursor → Cursor
  | 0, c => c
  | n + 1, c => cIter w h n (nextCursor w h c)

theorem pIter_cur (p : Painter) :
    ∀ (n : Nat) (s : PState), (pIter p n s).cur = cIter p.width p.height n s.cur := by
  intro n
  induction n with
  | zero =>
      intro s
      rfl
  | succ m ih =>
      intro s
      simp only [pIter, cIter]
      rw [ih, computeNextPixel_cur]

/-- Claim C9 counterexample: on a 1×1 buffer, four `computeNextPixel` steps
from the initial state leave the cursor at (1, 1), whose linear index is
2 > 1·1 = W·H — once the generation has finished, the x-coordinate keeps
incrementing and the linear index leaves the claimed range [-1, W·H]. -/
theorem claim_C9_counterexample :
    linearIndex 1 ((pIter samplePainter1 4 (Painter.initState samplePainter1)).cur) = 2
  ∧ ¬ (linearIndex 1 ((pIter samplePainter1 4 (Painter.initState samplePainter1)).cur)
        ≤ (1 : Int) * 1) := by
  have hc : (pIter samplePainter1 4 (Painter.initState samplePainter1)).cur = ⟨1, 1⟩ := by
    rw [pIter_cur]
    decide
  rw [hc]
  constructor
  · norm_num [linearIndex]
  · norm_num [linearIndex]

/-- Claim C9 amended: the cursor's linear index is at least -1 in every
reachable state, and at most W·H while the generation is unfinished
(cursor row y < H); the reachability invariant `cursorOk` holds initially,
is preserved by `computeNextPixel` and by `resetImage` (which either
rewinds the cursor to (-1, 0) or leaves it untouched); but once y = H the
cursor only advances in x, so the index is not bounded by W·H afterwards. -/
theorem claim_C9_amended (w h : Nat) (c : Cursor) (hOk : cursorOk w h c) :
    (-1 ≤ linearIndex w c)
  ∧ (c.y < (h : Int) → linearIndex w c ≤ (w : Int) * (h : Int))
  ∧ cursorOk w h ⟨-1, 0⟩
  ∧ (∀ (p : Painter) (s : PState), p.width = w → p.height = h → s.cur = c →
        cursorOk w h (p.computeNextPixel s).cur)
  ∧ (∀ (p : Painter) (m : Option Marker) (s : PState), s.cur = c →
        (p.resetImage m s).cur = ⟨-1, 0⟩ ∨ (p.resetImage m s).cur = c)
  ∧ (c.y = (h : Int) → nextCursor w h c = ⟨c.x + 1, c.y⟩) := by
  obtain ⟨x, y⟩ := c
  refine ⟨?_, ?_, ?_, ?_, ?_, ?_⟩
  · unfold cursorOk at hOk
    unfold linearIndex
    dsimp only at hOk ⊢
    rcases hOk with ⟨hx, hy⟩ | ⟨hx0, hxw, hy0, hyh⟩ | ⟨hyh, hx⟩
    · rw [hx, hy]
      simp
    · have hp : 0 ≤ y * (w : Int) := mul_nonneg hy0 (by positivity)
      linarith
    · have hp : 0 ≤ y * (w : Int) := mul_nonneg (by omega) (by positivity)
      linarith
  · intro hy
    unfold cursorOk at hOk
    unfold linearIndex
    dsimp only at hOk hy ⊢
    rcases hOk with ⟨hx, hy0⟩ | ⟨hx0, hxw, hy0, hyh⟩ | ⟨hyh, hx⟩
    · rw [hx, hy0]
      have hp : (0 : Int) ≤ (w : Int) * (h : Int) := mul_nonneg (by positivity) (by positivity)
      linarith
    · have h1 : y * (w : Int) ≤ ((h : Int) - 1) * (w : Int) :=
        mul_le_mul_of_nonneg_right (by omega) (by positivity)
      nlinarith
    · omega
  · unfold cursorOk
    dsimp only
    left
    exact ⟨rfl, rfl⟩
  · intro p s hw hh hsc
    rw [computeNextPixel_cur, hsc, hw, hh]
    exact nextCursor_ok w h ⟨x, y⟩ hOk
  · intro p m s hsc
    unfold Painter.resetImage
    rcases m with _ | mm
    · left
      rfl
    · dsimp only
      split_ifs
      · right
        rw [hsc]
      · left
        rfl
  · intro hy
    dsimp only at hy
    exact nextCursor_neg w h ⟨x, y⟩ (by dsimp only; omega)

/-- Witness for the C9 amendment at the fresh cursor on a 2×2 buffer. -/
theorem claim_C9_witness : (-1 : Int) ≤ linearIndex 2 ⟨-1, 0⟩ :=
  (claim_C9_amended 2 2 ⟨-1, 0⟩ (by decide)).1

theorem samplePainter_complexes :
    samplePainter.complexesOf
        ⟨((nextCursor samplePainter.width samplePainter.height ⟨-1, 0⟩).x : ℚ),
         ((nextCursor samplePainter.width samplePainter.height ⟨-1, 0⟩).y : ℚ)⟩
      = [⟨-1, 1⟩, ⟨-3/10, -1/2⟩] := by
  norm_num [nextCursor, Painter.complexesOf, samplePainter,
    TranslatingContext.inverseTransform, TranslatingContext.fromCanvasX,
    TranslatingContext.fromCanvasY,
    show ¬(("B" : String) = "A") from by decide]

theorem sampleClassify :
    Painter.getPixelColorFrom ⟨-1, 1⟩ [⟨-3/10, -1/2⟩] ITER_COLORS = (6, 70, 227) := by
  have h0 : ¬ stopsAt ⟨-1, 1⟩ [⟨-3/10, -1/2⟩] 0 := by
    norm_num [stopsAt, escTest, orbit, iterStep, Complex.multiply, Complex.add, abs]
  have h1 : ¬ stopsAt ⟨-1, 1⟩ [⟨-3/10, -1/2⟩] 1 := by
    norm_num [stopsAt, escTest, orbit, iterStep, Complex.multiply, Complex.add, abs]
  have h2 : stopsAt ⟨-1, 1⟩ [⟨-3/10, -1/2⟩] (0 + 2) := by
    norm_num [stopsAt, escTest, orbit, iterStep, Complex.multiply, Complex.add, abs]
  have hres := classifyLoop_of_first_stop ⟨-1, 1⟩ [⟨-3/10, -1/2⟩] ITER_COLORS
    ITER_COLORS 0 2 (by norm_num [ITER_COLORS]) h2
    (by
      intro k hk
      rw [Nat.zero_add]
      interval_cases k
      · exact h0
      · exact h1)
  calc Painter.getPixelColorFrom ⟨-1, 1⟩ [⟨-3/10, -1/2⟩] ITER_COLORS
      = ITER_COLORS.getD (0 + 2) (0, 0, 0) := hres
    _ = (6, 70, 227) := by decide

theorem computeNextPixel_writes (p : Painter) (s : PState) (z : Complex)
    (rest : List Complex)
    (hm : p.complexesOf ⟨((nextCursor p.width p.height s.cur).x : ℚ),
            ((nextCursor p.width p.height s.cur).y : ℚ)⟩ = z :: rest)
    (hy : (nextCursor p.width p.height s.cur).y < (p.height : Int)) :
    (p.computeNextPixel s).data
      = dataSet s.data (linearIndex p.width (nextCursor p.width p.height s.cur))
          ⟨(Painter.getPixelColorFrom z rest ITER_COLORS).1,
           (Painter.getPixelColorFrom z rest ITER_COLORS).2.1,
           (Painter.getPixelColorFrom z rest ITER_COLORS).2.2, 250⟩ := by
  have hg : p.getPixelColor ⟨((nextCursor p.width p.height s.cur).x : ℚ),
      ((nextCursor p.width p.height s.cur).y : ℚ)⟩
      = some (Painter.getPixelColorFrom z rest ITER_COLORS) := by
    unfold Painter.getPixelColor
    rw [hm]
  unfold Painter.computeNextPixel
  dsimp only
  rw [if_neg (show ¬((nextCursor p.width p.height s.cur).y ≥ (p.height : Int)) by omega),
    hg]

/-- Claim C6 amended: every pixel the scheduler computes is written into the
buffer at that pixel's offset, but with alpha 250 — nearly, not fully,
opaque (the maximum alpha value being 255, which is what `resetImage` uses
for blank pixels). -/
theorem claim_C6_amended (p : Painter) (s : PState) (z : Complex) (rest : List Complex)
    (hm : p.complexesOf ⟨((nextCursor p.width p.height s.cur).x : ℚ),
            ((nextCursor p.width p.height s.cur).y : ℚ)⟩ = z :: rest)
    (hy : (nextCursor p.width p.height s.cur).y < (p.height : Int)) :
    (p.computeNextPixel s).data
      = dataSet s.data (linearIndex p.width (nextCursor p.width p.height s.cur))
          ⟨(Painter.getPixelColorFrom z rest ITER_COLORS).1,
           (Painter.getPixelColorFrom z rest ITER_COLORS).2.1,
           (Painter.getPixelColorFrom z rest ITER_COLORS).2.2, 250⟩ :=
  computeNextPixel_writes p s z rest hm hy

/-- Witness for the C6 amendment: the first pixel computed by the concrete
painter is written at offset 0 with alpha 250. -/
theorem claim_C6_witness :
    (samplePainter.computeNextPixel
        ⟨[blankPixel, blankPixel, blankPixel, blankPixel], ⟨-1, 0⟩⟩).data
      = dataSet [blankPixel, blankPixel, blankPixel, blankPixel]
          (linearIndex samplePainter.width
            (nextCursor samplePainter.width samplePainter.height ⟨-1, 0⟩))
          ⟨(Painter.getPixelColorFrom ⟨-1, 1⟩ [⟨-3/10, -1/2⟩] ITER_COLORS).1,
           (Painter.getPixelColorFrom ⟨-1, 1⟩ [⟨-3/10, -1/2⟩] ITER_COLORS).2.1,
           (Painter.getPixelColorFrom ⟨-1, 1⟩ [⟨-3/10, -1/2⟩] ITER_COLORS).2.2, 250⟩ :=
  claim_C6_amended samplePainter
    ⟨[blankPixel, blankPixel, blankPixel, blankPixel], ⟨-1, 0⟩⟩
    ⟨-1, 1⟩ [⟨-3/10, -1/2⟩] samplePainter_complexes (by decide)

/-- Claim C6 counterexample: the first pixel computed by the concrete
painter is stored with alpha 250, not with the maximum alpha 255 — the
scheduler does not write computed pixels with full opacity. -/
theorem claim_C6_counterexample :
    ((samplePainter.computeNextPixel
        ⟨[blankPixel, blankPixel, blankPixel, blankPixel], ⟨-1, 0⟩⟩).data.getD 0 blankPixel).a
      = 250
  ∧ ((samplePainter.computeNextPixel
        ⟨[blankPixel, blankPixel, blankPixel, blankPixel], ⟨-1, 0⟩⟩).data.getD 0 blankPixel).a
      ≠ 255 := by
  have hs : (samplePainter.computeNextPixel
      ⟨[blankPixel, blankPixel, blankPixel, blankPixel], ⟨-1, 0⟩⟩).data
      = [⟨6, 70, 227, 250⟩, blankPixel, blankPixel, blankPixel] := by
    rw [computeNextPixel_writes samplePainter
      ⟨[blankPixel, blankPixel, blankPixel, blankPixel], ⟨-1, 0⟩⟩
      ⟨-1, 1⟩ [⟨-3/10, -1/2⟩] samplePainter_complexes (by decide)]
    rw [sampleClassify]
    decide
  rw [hs]
  constructor
  · rfl
  · decide

/-- Stability check of the model: start (0,0) with fixed (0,0) converges at
round 0, since the orbit stays at the origin. -/
theorem stopsAt_origin : stopsAt ⟨0, 0⟩ [⟨0, 0⟩] 0 := by
  norm_num [stopsAt, escTest, orbit, iterStep, Complex.multiply, Complex.add]

end ComplexVis
